import Mathlib

/-!
# Verification of the ndle-worker redirect core

Shallow embedding, in Lean 4, of the algorithmic core of the `ndle-worker`
URL-shortener worker: the A/B variant-selection engine (`src/ab-testing.ts`),
the health classifier, the analytics field construction and redirect-response
builders (`src/helper.ts`), and the single-flight slug-warmup coalescer and
miss/hit path effect scheduling of the main route handler.

Conventions used throughout:
* JavaScript strings that are scanned character by character are modelled as
  `List Char`; `charCodeAt` is modelled by `Char.toNat` (the inputs in
  question are ASCII, where the two coincide).
* JavaScript 32-bit signed integer coercion (`x | 0`, `x & x`, `<<`) is
  modelled by `toInt32` over `Int`.
* The floating-point random draw of the weighted selector is modelled as an
  explicit rational parameter `random ∈ [0,1)`; functions that may draw
  randomness additionally return the number of draws they consumed, so that
  "never draws randomness" is expressible.
* Fallible or absent values are modelled with `Option`; backend fetch
  outcomes with `Except`.
-/

/-! ## A/B testing engine — embedding of `src/ab-testing.ts` -/

/-- One experiment variant: `{id, weight, url}` (`ABVariant` in `types.ts`). -/
structure ABVariant where
  id : String
  weight : Int
  url : String
deriving DecidableEq, Repr

/-- Experiment configuration: `{enabled, distribution, variants}`.
`distribution` is kept as a raw string because the source dispatches on
`config.distribution === "deterministic"` and treats every other string as
weighted. -/
structure ABTestConfig where
  enabled : Bool
  distribution : String
  variants : List ABVariant
deriving DecidableEq, Repr

/-- JavaScript `ToInt32`: reduce an integer to the range `[-2^31, 2^31)`
preserving its residue mod `2^32`.  This models `hash & hash` and the
implicit coercion of `hash << 5` in the source. -/
def toInt32 (x : Int) : Int :=
  (x + 2147483648) % 4294967296 - 2147483648

/-- One step of the session-id hash loop of `selectDeterministicVariant`:
`hash = (hash << 5) - hash + sessionId.charCodeAt(i); hash = hash & hash`.
The inner `toInt32` is the 32-bit wrap of `hash << 5`, the outer one is
`hash & hash`. -/
def jsHashStep (h : Int) (c : Char) : Int :=
  toInt32 (toInt32 (h * 32) - h + c.toNat)

/-- The full hash of the session id accumulated from `0`, as in the `for`
loop of `selectDeterministicVariant`. -/
def jsHash (sessionId : List Char) : Int :=
  sessionId.foldl jsHashStep 0

/-- The `for (const variant of variants)` loop of
`selectDeterministicVariant`: accumulate `threshold += weight` and return
the first variant with `bucket < threshold`. -/
def detLoop (bucket : Int) : Int → List ABVariant → Option ABVariant
  | _, [] => none
  | threshold, v :: rest =>
    let t := threshold + v.weight
    if bucket < t then some v else detLoop bucket t rest

/-- Embedding of `selectDeterministicVariant(variants, sessionId)`:
empty list → `null`; `totalWeight <= 0` → first variant; otherwise bucket
the 32-bit hash and walk the cumulative thresholds, falling back to the
last variant. -/
def selectDeterministicVariant (variants : List ABVariant) (sessionId : List Char) :
    Option ABVariant :=
  match variants with
  | [] => none
  | v0 :: rest =>
    let hash := jsHash sessionId
    let totalWeight : Int := ((v0 :: rest).map (·.weight)).sum
    if totalWeight ≤ 0 then some v0
    else
      let bucket : Int := (hash.natAbs : Int) % totalWeight
      match detLoop bucket 0 (v0 :: rest) with
      | some v => some v
      | none => (v0 :: rest).getLast?

/-- The `for (const variant of variants)` loop of `selectWeightedVariant`:
`threshold -= weight`, return the first variant at which `threshold <= 0`. -/
def wLoop : ℚ → List ABVariant → Option ABVariant
  | _, [] => none
  | threshold, v :: rest =>
    let t := threshold - (v.weight : ℚ)
    if t ≤ 0 then some v else wLoop t rest

/-- Embedding of `selectWeightedVariant(variants)`.  The call to
`crypto.getRandomValues` is modelled by the explicit parameter `random`;
the second component counts how many random draws were made (the source
draws exactly once, and only after the `totalWeight <= 0` guard). -/
def selectWeightedVariant (variants : List ABVariant) (random : ℚ) :
    Option ABVariant × Nat :=
  match variants with
  | [] => (none, 0)
  | v0 :: rest =>
    let totalWeight : Int := ((v0 :: rest).map (·.weight)).sum
    if totalWeight ≤ 0 then (some v0, 0)
    else
      let threshold := random * (totalWeight : ℚ)
      (match wLoop threshold (v0 :: rest) with
       | some v => some v
       | none => (v0 :: rest).getLast?, 1)

/-- Embedding of `resolveABTest(config, sessionId)`: disabled, absent or
empty-variant configs resolve to `null`; otherwise dispatch on
`config.distribution === "deterministic"`.  Returns `(url, variantId)` and
the number of random draws consumed. -/
def resolveABTest (config : Option ABTestConfig) (sessionId : List Char) (random : ℚ) :
    Option (String × String) × Nat :=
  match config with
  | none => (none, 0)
  | some cfg =>
    if cfg.enabled && !cfg.variants.isEmpty then
      if cfg.distribution = "deterministic" then
        match selectDeterministicVariant cfg.variants sessionId with
        | some v => (some (v.url, v.id), 0)
        | none => (none, 0)
      else
        match selectWeightedVariant cfg.variants random with
        | (some v, d) => (some (v.url, v.id), d)
        | (none, d) => (none, d)
    else (none, 0)

/-- The cache-hit A/B block of the route handler (`index.ts`, cache-hit
branch): when the record carries `rules.ab_test` with `enabled` and a
non-empty variant list, call `resolveABTest(abConfig, sessionId)` —
the same dispatch as the miss path. -/
def cacheHitABDispatch (abConfig : Option ABTestConfig) (sessionId : List Char)
    (random : ℚ) : Option (String × String) × Nat :=
  match abConfig with
  | none => (none, 0)
  | some cfg =>
    if cfg.enabled && !cfg.variants.isEmpty then
      resolveABTest (some cfg) sessionId random
    else (none, 0)

/-! ### Specification-side definitions for the deterministic selector (C6) -/

/-- Stated from the spec: one step of the fingerprint hash,
`h := (h << 5) − h + charCode(c) = 31·h + charCode(c)` with a single
32-bit signed wraparound. -/
def specHashStep (h : Int) (c : Char) : Int :=
  toInt32 (31 * h + c.toNat)

/-- Stated from the spec: the fingerprint hash accumulated over the
characters starting from `0`. -/
def specHash (sessionId : List Char) : Int :=
  sessionId.foldl specHashStep 0

/-- Cumulative weight thresholds of a variant list, starting from `acc`:
the running sums `acc + w₁, acc + w₁ + w₂, …`. -/
def cumThresholds (acc : Int) : List ABVariant → List Int
  | [] => []
  | v :: rest => (acc + v.weight) :: cumThresholds (acc + v.weight) rest

/-- Stated from the spec (claim C6): select the first variant, in declared
order, whose cumulative weight threshold strictly exceeds
`bucket = |h| mod totalWeight`; fall back to the last variant; return the
first variant when the total weight is not positive. -/
def specDeterministicVariant (variants : List ABVariant) (sessionId : List Char) :
    Option ABVariant :=
  match variants with
  | [] => none
  | v0 :: rest =>
    let totalWeight : Int := ((v0 :: rest).map (·.weight)).sum
    if totalWeight ≤ 0 then some v0
    else
      let bucket : Int := ((specHash sessionId).natAbs : Int) % totalWeight
      match ((v0 :: rest).zip (cumThresholds 0 (v0 :: rest))).find?
          (fun p => decide (bucket < p.2)) with
      | some p => some p.1
      | none => (v0 :: rest).getLast?

/-! ### Hash and loop lemmas -/

/-- `toInt32` only depends on the residue mod `2^32`, so the double
wraparound of the source step equals the single wraparound of the spec
step. -/
theorem jsHashStep_eq_specHashStep (h : Int) (c : Char) :
    jsHashStep h c = specHashStep h c := by
  unfold jsHashStep specHashStep toInt32
  omega

/-- The hash folds agree from every starting accumulator. -/
theorem foldl_jsHashStep_eq (cs : List Char) :
    ∀ h : Int, cs.foldl jsHashStep h = cs.foldl specHashStep h := by
  induction cs with
  | nil => intro h; rfl
  | cons c cs ih =>
    intro h
    simp only [List.foldl_cons, jsHashStep_eq_specHashStep]
    exact ih _

/-- The accumulated hashes agree. -/
theorem jsHash_eq_specHash (sessionId : List Char) :
    jsHash sessionId = specHash sessionId :=
  foldl_jsHashStep_eq sessionId 0

/-- The threshold-accumulating loop selects exactly the first variant whose
cumulative threshold strictly exceeds the bucket. -/
theorem detLoop_eq_find (bucket : Int) (vs : List ABVariant) (acc : Int) :
    detLoop bucket acc vs =
      ((vs.zip (cumThresholds acc vs)).find? (fun p => decide (bucket < p.2))).map
        Prod.fst := by
  induction vs generalizing acc with
  | nil => rfl
  | cons v rest ih =>
    simp only [detLoop, cumThresholds, List.zip_cons_cons, List.find?]
    by_cases h : bucket < acc + v.weight
    · simp [h]
    · simp [h, ih (acc + v.weight), List.zip]

/-! ### Claim theorems for the variant selector -/

/-- A concrete experiment configured with `distribution: "weighted"` and two
equal-weight variants, as a cache-hit record's `rules.ab_test` may carry. -/
def weightedHitConfig : ABTestConfig :=
  ⟨true, "weighted", [⟨"a", 1, "https://a.example/"⟩, ⟨"b", 1, "https://b.example/"⟩]⟩

/-- C1: the claim states that on a cache hit the resolver re-derives the
variant deterministically for every distribution mode and never invokes the
weighted (random) selector.  The code instead calls `resolveABTest`, which
dispatches on the configured distribution: for a `"weighted"` config the
cache-hit path consumes a random draw (second component `1`) and the served
variant varies with the draw, so the same user can see different variants
on successive hits — contradicting the handler's own comment that the
cache-hit selection "ensures each user (IP+UA) sees the same variant". -/
theorem cacheHit_weighted_config_draws_randomness :
    (cacheHitABDispatch (some weightedHitConfig) "sess0".toList 0).2 = 1 ∧
    (cacheHitABDispatch (some weightedHitConfig) "sess0".toList 0).1 =
      some ("https://a.example/", "a") ∧
    (cacheHitABDispatch (some weightedHitConfig) "sess0".toList (9 / 10)).1 =
      some ("https://b.example/", "b") := by
  have hd : ¬ (("weighted" : String) = "deterministic") := by decide
  refine ⟨?_, ?_, ?_⟩ <;>
    simp only [cacheHitABDispatch, resolveABTest, selectWeightedVariant, wLoop,
      weightedHitConfig] <;>
    norm_num [hd]

/-- C6: for every non-empty variant list of positive total weight and every
session fingerprint, `selectDeterministicVariant` computes the 32-bit
signed string hash `h ↦ (h << 5) − h + charCode`, buckets `|h|` by the
total weight, and returns the first variant (in declared order) whose
cumulative weight threshold strictly exceeds the bucket, falling back to
the last variant; repeated calls with the same fingerprint return the same
variant. -/
theorem selectDeterministicVariant_matches_spec (variants : List ABVariant)
    (sessionId : List Char) (hne : variants ≠ [])
    (hw : 0 < ((variants.map (·.weight)).sum : Int)) :
    selectDeterministicVariant variants sessionId =
      specDeterministicVariant variants sessionId ∧
    ∀ s₂ : List Char, s₂ = sessionId →
      selectDeterministicVariant variants s₂ =
        selectDeterministicVariant variants sessionId := by
  refine ⟨?_, fun s₂ h => by rw [h]⟩
  obtain ⟨v0, rest, rfl⟩ : ∃ v0 rest, variants = v0 :: rest := by
    cases variants with
    | nil => exact absurd rfl hne
    | cons a l => exact ⟨a, l, rfl⟩
  simp only [selectDeterministicVariant, specDeterministicVariant,
    jsHash_eq_specHash, detLoop_eq_find, if_neg (not_le.mpr hw)]
  cases hfind : ((v0 :: rest).zip (cumThresholds 0 (v0 :: rest))).find?
      (fun p => decide ((((specHash sessionId).natAbs : Int) %
        ((v0 :: rest).map (·.weight)).sum) < p.2)) with
  | none => simp [hfind]
  | some p => simp [hfind]

/-- Witness for C6 at a concrete two-variant configuration. -/
theorem selectDeterministicVariant_matches_spec_witness :
    (([⟨"a", 1, "https://a.example/"⟩, ⟨"b", 3, "https://b.example/"⟩] :
        List ABVariant) ≠ []) ∧
    (0 : Int) < ((([⟨"a", 1, "https://a.example/"⟩,
        ⟨"b", 3, "https://b.example/"⟩] : List ABVariant).map (·.weight)).sum) ∧
    selectDeterministicVariant
        [⟨"a", 1, "https://a.example/"⟩, ⟨"b", 3, "https://b.example/"⟩]
        "user1".toList =
      specDeterministicVariant
        [⟨"a", 1, "https://a.example/"⟩, ⟨"b", 3, "https://b.example/"⟩]
        "user1".toList :=
  ⟨by decide, by decide,
    (selectDeterministicVariant_matches_spec _ _ (by decide) (by decide)).1⟩

/-- C8: for every non-empty variant list whose weight sum is not positive,
both selection modes return the first variant, and the weighted mode does
so without consuming a random draw (second component `0`). -/
theorem nonpos_totalWeight_first_variant (v0 : ABVariant) (rest : List ABVariant)
    (random : ℚ) (sessionId : List Char)
    (hw : (((v0 :: rest).map (·.weight)).sum : Int) ≤ 0) :
    selectWeightedVariant (v0 :: rest) random = (some v0, 0) ∧
    selectDeterministicVariant (v0 :: rest) sessionId = some v0 := by
  constructor
  · simp only [selectWeightedVariant]
    rw [if_pos hw]
  · simp only [selectDeterministicVariant]
    rw [if_pos hw]

/-- Witness for C8 at a concrete zero-weight variant list. -/
theorem nonpos_totalWeight_first_variant_witness :
    ((((⟨"a", 0, "https://a.example/"⟩ : ABVariant) ::
        [⟨"b", 0, "https://b.example/"⟩]).map (·.weight)).sum : Int) ≤ 0 ∧
    selectWeightedVariant
        [⟨"a", 0, "https://a.example/"⟩, ⟨"b", 0, "https://b.example/"⟩] (1 / 2) =
      (some ⟨"a", 0, "https://a.example/"⟩, 0) ∧
    selectDeterministicVariant
        [⟨"a", 0, "https://a.example/"⟩, ⟨"b", 0, "https://b.example/"⟩]
        "x".toList = some ⟨"a", 0, "https://a.example/"⟩ :=
  ⟨by decide,
    (nonpos_totalWeight_first_variant _ _ (1 / 2) "x".toList (by decide)).1,
    (nonpos_totalWeight_first_variant _ _ (1 / 2) "x".toList (by decide)).2⟩

/-! ## Health classifier — embedding of `determineHealthStatus` in `src/helper.ts` -/

/-- The `HealthStatus` union of `types.ts`. -/
inductive HealthStatus where
  | timeout | ssl_error | dns_error | down | error | redirect_loop
  | unstable | slow | healthy
deriving DecidableEq, Repr

/-- `needle` is a prefix of `haystack` (character lists). -/
def leadsWith : List Char → List Char → Bool
  | [], _ => true
  | _ :: _, [] => false
  | a :: as, b :: bs => a = b && leadsWith as bs

/-- JavaScript `haystack.includes(needle)` on character lists. -/
def containsSub (needle : List Char) : List Char → Bool
  | [] => needle.isEmpty
  | c :: rest => leadsWith needle (c :: rest) || containsSub needle rest

/-- The probe response as seen by the classifier: HTTP status and the
`Location` header (absent when the header is missing). -/
structure ProbeResponse where
  status : Nat
  location : Option (List Char)
deriving DecidableEq, Repr

/-- The guard `location && location.includes('redirect')` of the source:
string truthiness of the header value (`!l.isEmpty`) conjoined with the
substring test. -/
def locationHasMarker (loc : Option (List Char)) : Bool :=
  match loc with
  | some l => !l.isEmpty && containsSub "redirect".toList l
  | none => false

/-- Stated from the spec (claim C5): the `Location` header "contains a
self-referential redirect marker". -/
def specLocationHasMarker (loc : Option (List Char)) : Bool :=
  match loc with
  | some l => containsSub "redirect".toList l
  | none => false

/-- Embedding of `determineHealthStatus(response, responseTime, error)`.
The JS nested `if (300 <= s < 400) { if (location && includes) return … }`
with fall-through is encoded as a single conjunctive guard. -/
def determineHealthStatus (response : Option ProbeResponse) (responseTime : Nat)
    (error : Option (List Char)) : HealthStatus × Bool :=
  match error with
  | some e =>
    let msg := e.map Char.toLower
    if containsSub "timeout".toList msg = true ∨ containsSub "aborted".toList msg = true then
      (.timeout, false)
    else if containsSub "ssl".toList msg = true ∨ containsSub "certificate".toList msg = true then
      (.ssl_error, false)
    else if containsSub "dns".toList msg = true ∨ containsSub "name resolution".toList msg = true then
      (.dns_error, false)
    else if containsSub "network".toList msg = true ∨ containsSub "connection".toList msg = true then
      (.down, false)
    else (.error, false)
  | none =>
    match response with
    | some r =>
      if 300 ≤ r.status ∧ r.status < 400 ∧ locationHasMarker r.location = true then
        (.redirect_loop, false)
      else if 500 ≤ r.status then (.down, false)
      else if 400 ≤ r.status ∧ r.status < 500 then (.unstable, false)
      else if 200 ≤ r.status ∧ r.status < 400 then
        if 5000 < responseTime then (.slow, false)
        else if 3000 < responseTime then (.slow, true)
        else (.healthy, true)
      else (.error, false)
    | none => (.error, false)

/-- Stated from the spec (claim C5): the ordered decision table.  With an
error, the first matching keyword group of the lowercased message decides
the status; with a response, a `[300,400)` status whose `Location` header
contains the redirect marker is a redirect loop, else `≥ 500` is down,
`[400,500)` unstable, `[200,400)` the healthy branch graded by response
time; otherwise the defensive `error` fallback. -/
def healthSpecTable (response : Option ProbeResponse) (responseTime : Nat)
    (error : Option (List Char)) : HealthStatus × Bool :=
  match error with
  | some e =>
    let msg := e.map Char.toLower
    if containsSub "timeout".toList msg = true ∨ containsSub "aborted".toList msg = true then
      (.timeout, false)
    else if containsSub "ssl".toList msg = true ∨ containsSub "certificate".toList msg = true then
      (.ssl_error, false)
    else if containsSub "dns".toList msg = true ∨ containsSub "name resolution".toList msg = true then
      (.dns_error, false)
    else if containsSub "network".toList msg = true ∨ containsSub "connection".toList msg = true then
      (.down, false)
    else (.error, false)
  | none =>
    match response with
    | some r =>
      if 300 ≤ r.status ∧ r.status < 400 ∧ specLocationHasMarker r.location = true then
        (.redirect_loop, false)
      else if 500 ≤ r.status then (.down, false)
      else if 400 ≤ r.status ∧ r.status < 500 then (.unstable, false)
      else if 200 ≤ r.status ∧ r.status < 400 then
        if 5000 < responseTime then (.slow, false)
        else if 3000 < responseTime then (.slow, true)
        else (.healthy, true)
      else (.error, false)
    | none => (.error, false)

/-- C5: the health classifier agrees with the spec's ordered decision table
on every input (response or not, any status, any `Location` header, any
response time, any error message). -/
theorem determineHealthStatus_matches_spec (response : Option ProbeResponse)
    (responseTime : Nat) (error : Option (List Char)) :
    determineHealthStatus response responseTime error =
      healthSpecTable response responseTime error := by
  have hm : ∀ loc, locationHasMarker loc = specLocationHasMarker loc := by
    intro loc
    cases loc with
    | none => rfl
    | some l => cases l with | nil => rfl | cons c cs => rfl
  cases error with
  | some e => rfl
  | none =>
    cases response with
    | none => rfl
    | some r => simp only [determineHealthStatus, healthSpecTable, hm]

/-! ## Redirect responses and analytics fields — embedding of `src/helper.ts` -/

/-- The slice of a Worker `Response` the claims are about: status code,
`Location`, and the caching headers.  The advisory `Accept-CH`/`Critical-CH`
and `Content-Type` headers of the source are constants not referenced by
any claim and are omitted. -/
structure WResponse where
  status : Nat
  location : Option String
  cacheControl : Option String
  pragma : Option String
  expires : Option String
deriving DecidableEq, Repr

/-- Embedding of `buildClientRedirectResponse(location)`: the response the
client receives — a 302 with fully non-cacheable headers. -/
def buildClientRedirectResponse (location : String) : WResponse :=
  { status := 302
    location := some location
    cacheControl := some "no-store, no-cache, max-age=0, must-revalidate"
    pragma := some "no-cache"
    expires := some "0" }

/-- Embedding of `buildCacheableRedirectResponse(location)`: the 301 built
only to be stored in the server-side Worker cache. -/
def buildCacheableRedirectResponse (location : String) : WResponse :=
  { status := 301
    location := some location
    cacheControl := some "no-store"
    pragma := none
    expires := none }

/-- JavaScript string truthiness as used by `a || b || null`: an absent or
empty string falls through to the next alternative. -/
def jsStrFalsy (v : Option String) : Option String :=
  match v with
  | some s => if s = "" then none else some s
  | none => none

/-- One UTM field of `buildAnalyticsInput`:
`url.searchParams.get(k) || redisValue?.utm_params?.[k] || null`. -/
def utmField (queryVal storedVal : Option String) : Option String :=
  match jsStrFalsy queryVal with
  | some s => some s
  | none => jsStrFalsy storedVal

/-- The fields of the analytics event the claims are about.  `query k` is
`url.searchParams.get(k)` on the request URL; `stored k` is the record's
`utm_params[k]`. -/
structure AnalyticsFields where
  redirect_status : Nat
  utm_source : Option String
  utm_medium : Option String
  utm_campaign : Option String
  utm_term : Option String
  utm_content : Option String
deriving DecidableEq, Repr

/-- Embedding of the corresponding field computations of
`buildAnalyticsInput` in `src/helper.ts`: `redirect_status` is the literal
`301`, and each UTM field applies the `||` precedence chain. -/
def buildAnalyticsFields (query stored : String → Option String) : AnalyticsFields :=
  { redirect_status := 301
    utm_source := utmField (query "utm_source") (stored "utm_source")
    utm_medium := utmField (query "utm_medium") (stored "utm_medium")
    utm_campaign := utmField (query "utm_campaign") (stored "utm_campaign")
    utm_term := utmField (query "utm_term") (stored "utm_term")
    utm_content := utmField (query "utm_content") (stored "utm_content") }

/-- C4 counterexample: on a cold-cache resolution the client response has
status `302` while the dispatched analytics event records
`redirect_status = 301`, so the two cannot match. -/
theorem redirect_status_mismatch_counterexample :
    (buildAnalyticsFields (fun _ => none) (fun _ => none)).redirect_status = 301 ∧
    (buildClientRedirectResponse "https://dst.example/").status = 302 ∧
    (buildAnalyticsFields (fun _ => none) (fun _ => none)).redirect_status ≠
      (buildClientRedirectResponse "https://dst.example/").status := by
  refine ⟨rfl, rfl, by decide⟩

/-- C4 amended: the analytics event's `redirect_status` is the constant
`301` — the status of the cacheable redirect stored in the edge cache —
and always differs from the `302` status of the response returned to the
client. -/
theorem redirect_status_is_cacheable_status (query stored : String → Option String)
    (loc : String) :
    (buildAnalyticsFields query stored).redirect_status = 301 ∧
    (buildClientRedirectResponse loc).status = 302 ∧
    (buildAnalyticsFields query stored).redirect_status =
      (buildCacheableRedirectResponse loc).status ∧
    (buildAnalyticsFields query stored).redirect_status ≠
      (buildClientRedirectResponse loc).status := by
  refine ⟨rfl, rfl, rfl, ?_⟩
  show (301 : Nat) ≠ 302
  decide

/-- A request whose query string carries `utm_source=` with an empty value. -/
def queryWithEmptyUtmSource : String → Option String :=
  fun k => if k = "utm_source" then some "" else none

/-- A link record whose stored `utm_params.utm_source` is `"promo"`. -/
def storedUtmPromo : String → Option String :=
  fun k => if k = "utm_source" then some "promo" else none

/-- C9 counterexample: when the query string provides `utm_source` with an
empty value, the event takes the record's stored value (`"promo"`), not
the query-string value — the query string did not omit the parameter, yet
the stored value was used. -/
theorem utm_empty_query_value_counterexample :
    queryWithEmptyUtmSource "utm_source" = some "" ∧
    (buildAnalyticsFields queryWithEmptyUtmSource storedUtmPromo).utm_source =
      some "promo" ∧
    (buildAnalyticsFields queryWithEmptyUtmSource storedUtmPromo).utm_source ≠
      some "" := by
  refine ⟨rfl, rfl, by decide⟩

/-- C9 amended: for each UTM field, a non-empty query-string value wins;
the stored value is used only when the query string omits the parameter or
provides an empty value and the stored value is itself non-empty; the
field is null otherwise. -/
theorem utm_precedence (query stored : String → Option String) :
    ((buildAnalyticsFields query stored).utm_source =
        utmField (query "utm_source") (stored "utm_source") ∧
      (buildAnalyticsFields query stored).utm_medium =
        utmField (query "utm_medium") (stored "utm_medium") ∧
      (buildAnalyticsFields query stored).utm_campaign =
        utmField (query "utm_campaign") (stored "utm_campaign") ∧
      (buildAnalyticsFields query stored).utm_term =
        utmField (query "utm_term") (stored "utm_term") ∧
      (buildAnalyticsFields query stored).utm_content =
        utmField (query "utm_content") (stored "utm_content")) ∧
    ∀ q s : Option String,
      (∀ x, q = some x → x ≠ "" → utmField q s = some x) ∧
      ((q = none ∨ q = some "") → ∀ y, s = some y → y ≠ "" → utmField q s = some y) ∧
      ((q = none ∨ q = some "") → (s = none ∨ s = some "") → utmField q s = none) := by
  refine ⟨⟨rfl, rfl, rfl, rfl, rfl⟩, ?_⟩
  intro q s
  refine ⟨?_, ?_, ?_⟩
  · intro x hq hx
    subst hq
    simp [utmField, jsStrFalsy, hx]
  · intro hq y hs hy
    subst hs
    rcases hq with h | h <;> subst h <;> simp [utmField, jsStrFalsy, hy]
  · intro hq hs
    rcases hq with h | h <;> subst h <;>
      rcases hs with h2 | h2 <;> subst h2 <;> simp [utmField, jsStrFalsy]

/-- Witness for C9 (amended) at concrete query/stored functions. -/
theorem utm_precedence_witness :
    (some "qsval" : Option String) = some "qsval" ∧ ("qsval" : String) ≠ "" ∧
    utmField (some "qsval") (some "promo") = some "qsval" :=
  ⟨rfl, by decide,
    ((utm_precedence (fun _ => some "qsval") (fun _ => some "promo")).2
      (some "qsval") (some "promo")).1 "qsval" rfl (by decide)⟩

/-! ## Session fingerprint for variant selection — embedding of the
`sessionId` construction of the route handler -/

/-- Embedding of the route handler's fingerprint for variant selection
(cache-hit and miss path alike):
`` `${ipHash}-${userAgent}`.substring(0, 32) `` where `ipHash` is the
SHA-256 hex digest of the client IP (always 64 hex characters). -/
def sessionIdForVariantSelection (ipHash userAgent : List Char) : List Char :=
  (ipHash ++ '-' :: userAgent).take 32

/-- A 64-character hex digest of the shape `sha256Hex` always produces. -/
def digest64 : List Char := List.replicate 64 'a'

/-- C7 counterexample: two requests from the same client IP but different
user agents are given the same variant-selection fingerprint — the
fingerprint is not a function of the user agent, and no hash is applied to
the concatenation. -/
theorem sessionId_userAgent_counterexample :
    sessionIdForVariantSelection digest64 "Mozilla/5.0".toList =
      sessionIdForVariantSelection digest64 "curl/8.0".toList ∧
    "Mozilla/5.0".toList ≠ "curl/8.0".toList := by
  refine ⟨by decide, by decide⟩

/-- C7 amended: the fingerprint passed to variant selection is the first 32
characters of `hashedIp ++ "-" ++ userAgent`; since the hashed IP is a
64-character hex digest, this equals the first 32 characters of the hashed
IP alone, so it is bounded to 32 characters and independent of the user
agent. -/
theorem sessionId_is_ipHash_truncation (ipHash userAgent : List Char)
    (h : 32 ≤ ipHash.length) :
    sessionIdForVariantSelection ipHash userAgent = ipHash.take 32 ∧
    (sessionIdForVariantSelection ipHash userAgent).length ≤ 32 := by
  constructor
  · unfold sessionIdForVariantSelection
    rw [List.take_append_of_le_length h]
  · simp only [sessionIdForVariantSelection, List.length_take]
    exact min_le_left _ _

/-- Witness for C7 (amended) at a concrete 64-character digest. -/
theorem sessionId_is_ipHash_truncation_witness :
    32 ≤ digest64.length ∧
    sessionIdForVariantSelection digest64 "Mozilla/5.0".toList = digest64.take 32 :=
  ⟨by decide, (sessionId_is_ipHash_truncation digest64 "Mozilla/5.0".toList (by decide)).1⟩

/-! ## Deferred work on the cache-miss path — embedding of the
`startedWarmup` branches of the route handler -/

/-- The deferred work one cache-miss request schedules after answering the
client: whether the cache write ran (inside the leader's warmup pipeline),
how many analytics dispatch tasks were pushed, and whether the health
check/click persistence task was pushed. -/
structure DeferredWork where
  cacheWrite : Bool
  analyticsTaskCount : Nat
  healthCheckScheduled : Bool
deriving DecidableEq, Repr

/-- Embedding of the miss-path effect scheduling of the route handler:
the warmup pipeline (leader only) writes the cache when the record was
found; the whole telemetry `waitUntil` block is guarded by
`if (startedWarmup)`, inside which one analytics task is pushed per
configured endpoint (`ANALYTICS_ENDPOINT`+token, `API_SECRET`) and the
health-check task is pushed when the record is convex-eligible
(`link_id && user_id && is_active && !is_bot`). -/
def missPathDeferredWork (startedWarmup recordFound hasAnalyticsEndpoint
    hasApiSecret convexEligible : Bool) : DeferredWork :=
  { cacheWrite := startedWarmup && recordFound
    analyticsTaskCount :=
      if startedWarmup then
        (if hasAnalyticsEndpoint then 1 else 0) + (if hasApiSecret then 1 else 0)
      else 0
    healthCheckScheduled := startedWarmup && convexEligible }

/-- C3 counterexample: a coalescing follower whose slug resolved (record
found, both analytics endpoints configured, record convex-eligible)
schedules no deferred work at all — it skips the telemetry and the health
check, not only the cache write — while the leader under the same
conditions schedules two analytics tasks and the health check. -/
theorem follower_schedules_nothing_counterexample :
    (missPathDeferredWork false true true true true).cacheWrite = false ∧
    (missPathDeferredWork false true true true true).analyticsTaskCount = 0 ∧
    (missPathDeferredWork false true true true true).healthCheckScheduled = false ∧
    (missPathDeferredWork true true true true true).analyticsTaskCount = 2 ∧
    (missPathDeferredWork true true true true true).healthCheckScheduled = true := by
  decide

/-- C3 amended: on the cache-miss path only the coalescing leader schedules
any deferred work — the cache write (when the record was found) and the
enrichment/telemetry/health tasks; followers that joined an in-flight
fetch answer the client and schedule nothing. -/
theorem only_leader_schedules_deferred_work (recordFound hasAnalyticsEndpoint
    hasApiSecret convexEligible : Bool) :
    missPathDeferredWork false recordFound hasAnalyticsEndpoint hasApiSecret
        convexEligible = ⟨false, 0, false⟩ ∧
    missPathDeferredWork true recordFound hasAnalyticsEndpoint hasApiSecret
        convexEligible =
      ⟨recordFound,
        (if hasAnalyticsEndpoint then 1 else 0) + (if hasApiSecret then 1 else 0),
        convexEligible⟩ := by
  constructor <;> simp [missPathDeferredWork]

/-! ## Client responses on the hit and miss paths (C10) -/

/-- `cached.headers.get("Location") || ""` of the cache-hit branch. -/
def cachedLocation (cached : WResponse) : String := cached.location.getD ""

/-- The destination served on a cache hit: the cached `Location`, possibly
replaced by a (valid) variant URL when an active experiment resolved. -/
def cacheHitDestination (cached : WResponse) (variantUrl : Option String) : String :=
  match variantUrl with
  | some u => u
  | none => cachedLocation cached

/-- The response the cache-hit branch returns to the client:
`if (destination) return buildClientRedirectResponse(new URL(destination));
return c.notFound();` — `none` stands for the not-found response. -/
def cacheHitClientResponse (destination : String) : Option WResponse :=
  if destination ≠ "" then some (buildClientRedirectResponse destination) else none

/-- The response the miss path returns to the client
(`const response = buildClientRedirectResponse(finalUrl)`). -/
def missPathClientResponse (finalUrl : String) : WResponse :=
  buildClientRedirectResponse finalUrl

/-- The response the leader's warmup stores in the edge cache
(`buildCacheableRedirectResponse(finalUrl)` passed to `cache.put`). -/
def warmupStoredResponse (finalUrl : String) : WResponse :=
  buildCacheableRedirectResponse finalUrl

/-- C10: on both paths the client receives a freshly built 302 with the
non-cacheable `Cache-Control` header; the 301 is built only for the cache
write and its status differs from every client response; a cache hit with
no variant override is answered by a fresh 302 built from the cached
entry's `Location` header (not by returning the cached 301 itself). -/
theorem client_response_is_fresh_302 (cached : WResponse) (variantUrl : Option String)
    (finalUrl : String) (r : WResponse)
    (hr : cacheHitClientResponse (cacheHitDestination cached variantUrl) = some r) :
    (r.status = 302 ∧
      r.cacheControl = some "no-store, no-cache, max-age=0, must-revalidate") ∧
    ((missPathClientResponse finalUrl).status = 302 ∧
      (missPathClientResponse finalUrl).cacheControl =
        some "no-store, no-cache, max-age=0, must-revalidate") ∧
    (warmupStoredResponse finalUrl).status = 301 ∧
    r.status ≠ (warmupStoredResponse finalUrl).status ∧
    (variantUrl = none → r = buildClientRedirectResponse (cachedLocation cached)) := by
  have hne : cacheHitDestination cached variantUrl ≠ "" := by
    intro h
    rw [cacheHitClientResponse, if_neg (fun hk => hk h)] at hr
    exact Option.noConfusion hr
  rw [cacheHitClientResponse, if_pos hne] at hr
  have hrEq : r = buildClientRedirectResponse (cacheHitDestination cached variantUrl) :=
    (Option.some.injEq _ _ ▸ hr).symm
  subst hrEq
  refine ⟨⟨rfl, rfl⟩, ⟨rfl, rfl⟩, rfl, ?_, ?_⟩
  · show (302 : Nat) ≠ 301
    decide
  · intro hv
    subst hv
    rfl

/-- Witness for C10: a cache hit holding the cached 301 for
`https://dst.example/` with no variant override. -/
theorem client_response_is_fresh_302_witness :
    cacheHitClientResponse
        (cacheHitDestination (buildCacheableRedirectResponse "https://dst.example/") none) =
      some (buildClientRedirectResponse "https://dst.example/") ∧
    (buildClientRedirectResponse "https://dst.example/").status = 302 :=
  ⟨by decide,
    (client_response_is_fresh_302 (buildCacheableRedirectResponse "https://dst.example/")
      none "https://x.example/" (buildClientRedirectResponse "https://dst.example/")
      (by decide)).1.1⟩

/-! ## Single-flight slug-warmup coalescer (C2)

Embedding of the `slugWarmups` block of the route handler as a transition
system.  The worker runs on a single-threaded cooperative scheduler, so the
code between reading `slugWarmups.get(slug)` and `slugWarmups.set(slug, p)`
cannot be interleaved by another request; one `arrive` event therefore
models a cache-miss request reaching the block atomically.  A `settle`
event models the warmup promise for a slug settling: the `.finally` handler
removes the map entry unconditionally, and every awaiter of the promise —
the leader included — receives the same outcome (`Except.ok` for a fetched
record-or-absent, `Except.error` for a rejected fetch). -/

/-- Association-list lookup keyed by slug (`slugWarmups.get`). -/
def alook (k : String) : List (String × Nat) → Option Nat
  | [] => none
  | (k', v) :: rest => if k' = k then some v else alook k rest

/-- Number of entries for a slug in the pending map. -/
def acount (k : String) (l : List (String × Nat)) : Nat :=
  (l.filter (fun p => decide (p.1 = k))).length

/-- Lookup of a request's delivered response. -/
def rlook {α : Type} (r : Nat) : List (Nat × α) → Option α
  | [] => none
  | (r', v) :: rest => if r' = r then some v else rlook r rest

/-- The coalescer state: the `slugWarmups` map (slug → in-flight fetch id),
a fresh-id counter, the log of backend fetches started, the requests
awaiting each in-flight fetch, and the outcomes delivered to requests. -/
structure SFState (α : Type) where
  pending : List (String × Nat)
  nextId : Nat
  fetchesStarted : List (Nat × String)
  waiters : List (Nat × Nat)
  responses : List (Nat × Except Unit α)

/-- The initial state: empty map, nothing in flight. -/
def sfInit (α : Type) : SFState α :=
  ⟨[], 0, [], [], []⟩

/-- Events: a cache-miss request for a slug reaches the coalescing block,
or the in-flight warmup for a slug settles with an outcome. -/
inductive SFEvent (α : Type) where
  | arrive (reqId : Nat) (slug : String)
  | settle (slug : String) (outcome : Except Unit α)

/-- One step of the coalescer.  `arrive`: if a warmup for the slug is
pending, await it (`existingWarmup`); otherwise start a backend fetch,
store the promise in the map, and await it too.  `settle`: remove the map
entry unconditionally (`.finally`) and deliver the outcome to every
awaiter of that fetch. -/
def sfStep {α : Type} (s : SFState α) : SFEvent α → SFState α
  | .arrive r slug =>
    match alook slug s.pending with
    | some f => { s with waiters := (r, f) :: s.waiters }
    | none =>
      { s with
        pending := (slug, s.nextId) :: s.pending
        nextId := s.nextId + 1
        fetchesStarted := (s.nextId, slug) :: s.fetchesStarted
        waiters := (r, s.nextId) :: s.waiters }
  | .settle slug outcome =>
    match alook slug s.pending with
    | some f =>
      { s with
        pending := s.pending.filter (fun p => !decide (p.1 = slug))
        waiters := s.waiters.filter (fun w => !decide (w.2 = f))
        responses :=
          (s.waiters.filterMap
            (fun w => if w.2 = f then some (w.1, outcome) else none)) ++ s.responses }
    | none => s

/-- Run a trace of events from the initial state. -/
def sfRun {α : Type} (events : List (SFEvent α)) : SFState α :=
  events.foldl sfStep (sfInit α)

/-- How many backend fetches have been started for a slug. -/
def fetchCount {α : Type} (slug : String) (s : SFState α) : Nat :=
  (s.fetchesStarted.filter (fun p => decide (p.2 = slug))).length

/-- A thundering herd: the requests `rs` all arrive for the same uncached
slug before the first backend fetch settles, then the fetch settles. -/
def herdScenario {α : Type} (rs : List Nat) (slug : String) (outcome : Except Unit α) :
    List (SFEvent α) :=
  rs.map (fun r => SFEvent.arrive r slug) ++ [SFEvent.settle slug outcome]

/-- A slug the map has no entry for also has no counted entries. -/
theorem acount_eq_zero_of_alook_none (k : String) (l : List (String × Nat))
    (h : alook k l = none) : acount k l = 0 := by
  induction l with
  | nil => rfl
  | cons p rest ih =>
    rcases p with ⟨k', v⟩
    by_cases hk : k' = k
    · rw [alook, if_pos hk] at h
      exact Option.noConfusion h
    · rw [alook, if_neg hk] at h
      simp only [acount, List.filter_cons]
      rw [if_neg (by simp [hk])]
      exact ih h

/-- Filtering never increases the per-slug entry count. -/
theorem acount_filter_le (k : String) (q : String × Nat → Bool)
    (l : List (String × Nat)) : acount k (l.filter q) ≤ acount k l :=
  ((List.filter_sublist l).filter _).length_le

/-- One step preserves "at most one pending fetch per slug". -/
theorem sfStep_pending_le_one {α : Type} (s : SFState α) (e : SFEvent α)
    (h : ∀ k, acount k s.pending ≤ 1) : ∀ k, acount k (sfStep s e).pending ≤ 1 := by
  intro k
  cases e with
  | arrive r slug =>
    cases halook : alook slug s.pending with
    | some f => simpa [sfStep, halook] using h k
    | none =>
      simp only [sfStep, halook]
      by_cases hk : slug = k
      · subst hk
        simp only [acount, List.filter_cons]
        rw [if_pos (by simp)]
        have hz := acount_eq_zero_of_alook_none slug s.pending halook
        simp only [acount] at hz
        simp [hz]
      · simp only [acount, List.filter_cons]
        rw [if_neg (by simp [hk])]
        exact h k
  | settle slug outcome =>
    cases halook : alook slug s.pending with
    | some f =>
      simp only [sfStep, halook]
      exact le_trans (acount_filter_le k _ s.pending) (h k)
    | none => simpa [sfStep, halook] using h k

/-- The per-slug bound holds along every trace from every state satisfying
it. -/
theorem sfFold_pending_le_one {α : Type} (tr : List (SFEvent α)) :
    ∀ s : SFState α, (∀ k, acount k s.pending ≤ 1) →
      ∀ k, acount k (tr.foldl sfStep s).pending ≤ 1 := by
  induction tr with
  | nil => intro s h; exact h
  | cons e rest ih =>
    intro s h
    exact ih (sfStep s e) (sfStep_pending_le_one s e h)

/-- Requests that join an existing in-flight warmup only add waiters: the
map, the id counter and the fetch log are untouched. -/
theorem sfFold_join_phase {α : Type} (rs : List Nat) (slug : String) (f : Nat) :
    ∀ s : SFState α, alook slug s.pending = some f →
      (rs.map (fun r => SFEvent.arrive r slug)).foldl sfStep s =
        { s with waiters := (rs.map (fun r => (r, f))).reverse ++ s.waiters } := by
  induction rs with
  | nil => intro s _; rfl
  | cons r rest ih =>
    intro s hp
    simp only [List.map_cons, List.foldl_cons]
    have hstep : sfStep s (SFEvent.arrive r slug) = { s with waiters := (r, f) :: s.waiters } := by
      simp [sfStep, hp]
    rw [hstep, ih { s with waiters := (r, f) :: s.waiters } hp]
    simp [List.append_assoc]

/-- Waiter lists all attached to fetch `0` are fully drained at settlement. -/
theorem filter_ne_zero_of_all_zero (m : List (Nat × Nat))
    (h : ∀ w ∈ m, w.2 = 0) : m.filter (fun w => !decide (w.2 = 0)) = [] := by
  induction m with
  | nil => rfl
  | cons w rest ih =>
    have hw := h w (List.mem_cons_self w rest)
    simp only [List.filter_cons, hw]
    simpa using ih (fun w' hw' => h w' (List.mem_cons_of_mem w hw'))

/-- Delivering to waiter lists all attached to fetch `0` produces one
response per waiter. -/
theorem filterMap_deliver_of_all_zero {α : Type} (outcome : Except Unit α)
    (m : List (Nat × Nat)) (h : ∀ w ∈ m, w.2 = 0) :
    m.filterMap (fun w => if w.2 = 0 then some (w.1, outcome) else none) =
      m.map (fun w => (w.1, outcome)) := by
  induction m with
  | nil => rfl
  | cons w rest ih =>
    have hw := h w (List.mem_cons_self w rest)
    have ih' := ih (fun w' hw' => h w' (List.mem_cons_of_mem w hw'))
    simp [List.filterMap_cons, hw, ih']

/-- Full evaluation of the thundering-herd scenario. -/
theorem sfRun_herd {α : Type} (r0 : Nat) (rs : List Nat) (slug : String)
    (outcome : Except Unit α) :
    sfRun (herdScenario (r0 :: rs) slug outcome) =
      { pending := []
        nextId := 1
        fetchesStarted := [(0, slug)]
        waiters := []
        responses := ((r0 :: rs).map (fun r => (r, outcome))).reverse } := by
  have h0 : sfStep (sfInit α) (SFEvent.arrive r0 slug) =
      ⟨[(slug, 0)], 1, [(0, slug)], [(r0, 0)], []⟩ := by
    simp [sfStep, sfInit, alook]
  have hp : alook slug ([(slug, 0)] : List (String × Nat)) = some 0 := by
    simp [alook]
  have hjoin := sfFold_join_phase (α := α) rs slug 0
    ⟨[(slug, 0)], 1, [(0, slug)], [(r0, 0)], []⟩ hp
  have hwaiters : ∀ w ∈ (rs.map (fun r => (r, 0))).reverse ++ [(r0, 0)],
      (w : Nat × Nat).2 = 0 := by
    intro w hw
    rcases List.mem_append.mp hw with h | h
    · rcases List.mem_map.mp (List.mem_reverse.mp h) with ⟨r, _, rfl⟩
      rfl
    · rcases List.mem_singleton.mp h with rfl
      rfl
  have hsplit : sfRun (herdScenario (r0 :: rs) slug outcome) =
      sfStep ((rs.map (fun r => SFEvent.arrive r slug)).foldl sfStep
        (sfStep (sfInit α) (SFEvent.arrive r0 slug))) (SFEvent.settle slug outcome) := by
    simp [sfRun, herdScenario, List.foldl_append]
  rw [hsplit, h0, hjoin]
  show sfStep (⟨[(slug, 0)], 1, [(0, slug)],
      (rs.map (fun r => (r, 0))).reverse ++ [(r0, 0)], []⟩ : SFState α)
    (SFEvent.settle slug outcome) = _
  simp only [sfStep, hp]
  simp only [SFState.mk.injEq]
  refine ⟨?_, trivial, trivial, ?_, ?_⟩
  · simp [List.filter_cons]
  · exact filter_ne_zero_of_all_zero _ hwaiters
  · rw [filterMap_deliver_of_all_zero outcome _ hwaiters, List.append_nil]
    simp [List.map_append, List.map_reverse, List.map_map, Function.comp]

/-- Every member of a list receives its mapped constant outcome. -/
theorem rlook_map_const {α : Type} (outcome : Except Unit α) (l : List Nat) (r : Nat)
    (h : r ∈ l) : rlook r (l.map (fun x => (x, outcome))) = some outcome := by
  induction l with
  | nil => cases h
  | cons x xs ih =>
    by_cases hx : x = r
    · simp [rlook, hx]
    · rcases List.mem_cons.mp h with rfl | hmem
      · exact absurd rfl hx
      · simp [rlook, hx, ih hmem]

/-- C2: within one process instance the coalescer is single-flight.
(1) Along every event trace, every slug has at most one pending fetch at
any instant.  (2) When N ≥ 2 requests for the same uncached slug all
arrive before the first backend fetch settles, exactly one backend fetch
is started, every one of the N requests receives the very same outcome,
and on settlement the map entry is removed whether the fetch succeeded,
returned absent, or failed (`outcome` ranges over `Except`), so that a
later request for the slug starts a fresh, second fetch. -/
theorem coalescer_single_flight {α : Type} :
    (∀ (tr : List (SFEvent α)) (slug : String), acount slug (sfRun tr).pending ≤ 1) ∧
    (∀ (slug : String) (rs : List Nat) (outcome : Except Unit α) (rNext : Nat),
      2 ≤ rs.length →
      fetchCount slug (sfRun (herdScenario rs slug outcome)) = 1 ∧
      (∀ r ∈ rs, rlook r (sfRun (herdScenario rs slug outcome)).responses = some outcome) ∧
      alook slug (sfRun (herdScenario rs slug outcome)).pending = none ∧
      fetchCount slug (sfStep (sfRun (herdScenario rs slug outcome))
        (SFEvent.arrive rNext slug)) = 2) := by
  constructor
  · intro tr slug
    exact sfFold_pending_le_one tr (sfInit α) (fun k => by simp [sfInit, acount]) slug
  · intro slug rs outcome rNext hlen
    obtain ⟨r0, rs', rfl⟩ : ∃ r0 rs', rs = r0 :: rs' := by
      cases rs with
      | nil => simp at hlen
      | cons a l => exact ⟨a, l, rfl⟩
    rw [sfRun_herd]
    refine ⟨?_, ?_, ?_, ?_⟩
    · simp [fetchCount]
    · intro r hr
      have hrev : (((r0 :: rs').map (fun x => (x, outcome))).reverse) =
          ((r0 :: rs').reverse).map (fun x => (x, outcome)) := by
        simp [List.map_reverse]
      show rlook r (((r0 :: rs').map (fun x => (x, outcome))).reverse) = some outcome
      rw [hrev]
      exact rlook_map_const outcome _ r (List.mem_reverse.mpr hr)
    · rfl
    · simp [sfStep, alook, fetchCount]

/-- Witness for C2: two concurrent requests (`1` and `2`) for the uncached
slug `"s"`, the fetch settling with a found record (modelled `true`). -/
theorem coalescer_single_flight_witness :
    2 ≤ ([1, 2] : List Nat).length ∧
    fetchCount "s" (sfRun (herdScenario [1, 2] "s" (Except.ok true))) = 1 ∧
    rlook 1 (sfRun (herdScenario [1, 2] "s" (Except.ok true))).responses =
      some (Except.ok true) ∧
    alook "s" (sfRun (herdScenario [1, 2] "s" (Except.ok true))).pending = none := by
  have h := (coalescer_single_flight (α := Bool)).2 "s" [1, 2] (Except.ok true) 3 (by decide)
  exact ⟨by decide, h.1, h.2.1 1 (by decide), h.2.2.1⟩
